import Mathlib

/-!
Shallow embedding of the weather-bot agent (src/src/lib/agent/tools.ts and
the AgentClient module): the response classifier
`mapResponseToLinearActivityContent`, the action executor `executeAction`,
the paged history reconstruction `generateMessagesFromPreviousActivities`,
and the bounded turn loop of `handleUserPrompt`.  External collaborators
(the language model, the activity store, the lookup services) are modelled
as oracles supplied through an environment record; everything else is a
direct translation of the TypeScript source.
-/

deriving instance DecidableEq for Except

namespace WeatherBot

/-- Characters matched by the JavaScript whitespace class: the set used by
both `String.prototype.trim` and the regex class `\s`. -/
def jsWhitespace (c : Char) : Bool :=
  c.toNat = 9 || c.toNat = 10 || c.toNat = 11 || c.toNat = 12 || c.toNat = 13 ||
  c.toNat = 32 || c.toNat = 160 || c.toNat = 0x1680 ||
  (0x2000 ≤ c.toNat && c.toNat ≤ 0x200A) ||
  c.toNat = 0x2028 || c.toNat = 0x2029 || c.toNat = 0x202F ||
  c.toNat = 0x205F || c.toNat = 0x3000 || c.toNat = 0xFEFF

/-- The JavaScript regex class `\w`: ASCII letters, digits and underscore. -/
def isWordChar (c : Char) : Bool :=
  ('a' ≤ c && c ≤ 'z') || ('A' ≤ c && c ≤ 'Z') || ('0' ≤ c && c ≤ '9') || c == '_'

/-- ASCII decimal digit test. -/
def isDigitChar (c : Char) : Bool :=
  '0' ≤ c && c ≤ '9'

/-- Whether the first list is a leading segment of the second
(JavaScript `String.prototype.startsWith`). -/
def leadsWith : List Char → List Char → Bool
  | [], _ => true
  | _ :: _, [] => false
  | p :: ps, c :: cs => p == c && leadsWith ps cs

/-- Whether the pattern occurs anywhere in the text as a contiguous segment. -/
def occursIn (pat : List Char) : List Char → Bool
  | [] => leadsWith pat []
  | c :: rest => leadsWith pat (c :: rest) || occursIn pat rest

/-- JavaScript `String.prototype.replace(pat, "")` for a plain-string
pattern: remove the leftmost occurrence of `pat`, if any. -/
def removeFirst (pat : List Char) : List Char → List Char
  | [] => []
  | c :: rest =>
    if leadsWith pat (c :: rest) then (c :: rest).drop pat.length
    else c :: removeFirst pat rest

/-- JavaScript `String.prototype.trim` on a character list. -/
def jsTrimL (s : List Char) : List Char :=
  ((s.dropWhile jsWhitespace).reverse.dropWhile jsWhitespace).reverse

/-- JavaScript `String.prototype.trim`. -/
def jsTrim (s : String) : String :=
  (jsTrimL s.data).asString

/-- The registered tool names (`ToolName` in ../types). -/
inductive ToolName where
  | getCoordinates
  | getWeather
  | getTime
deriving DecidableEq

/-- Modelled from the spec: the type guard `isToolName` of `../types` is not
under src/; per the data model, a tool name is "one of a closed, statically
known set (`getCoordinates`, `getWeather`, `getTime`)".  This map returns the
corresponding `ToolName` exactly for those three strings. -/
def toolNameOf? (s : String) : Option ToolName :=
  if s = "getCoordinates" then some ToolName.getCoordinates
  else if s = "getWeather" then some ToolName.getWeather
  else if s = "getTime" then some ToolName.getTime
  else none

/-- The boolean tool-name test used at classification time. -/
def isToolName (s : String) : Bool :=
  (toolNameOf? s).isSome

/-- The classified content of an agent activity (`Content` in ../types as
used by the source): the five variant tags, with `action` carrying the tool
name, the raw parameter (absent when the matched string is empty) and an
optional execution result (absent on the pre-execution record). -/
inductive Content where
  | thought (body : String)
  | action (tool : ToolName) (parameter : Option String) (result : Option String)
  | response (body : String)
  | elicitation (body : String)
  | error (body : String)
  | prompt (body : String)
deriving DecidableEq

/-- The five keyword-marked kinds recognised by the classifier. -/
inductive CKind where
  | thoughtK
  | actionK
  | responseK
  | elicitationK
  | errorK
deriving DecidableEq

/-- The `typeToKeyword` map of `mapResponseToLinearActivityContent`. -/
def typeToKeyword : CKind → String
  | CKind.thoughtK => "THINKING:"
  | CKind.actionK => "ACTION:"
  | CKind.responseK => "RESPONSE:"
  | CKind.elicitationK => "ELICITATION:"
  | CKind.errorK => "ERROR:"

/-- Insertion order of the `typeToKeyword` object literal, the order in
which `Object.entries(...).find(...)` tests the markers. -/
def keywordOrder : List CKind :=
  [CKind.thoughtK, CKind.actionK, CKind.responseK, CKind.elicitationK, CKind.errorK]

/-- Whether some recognised marker is a leading segment of the reply. -/
def hasMarker (s : List Char) : Bool :=
  (keywordOrder.find? fun k => leadsWith (typeToKeyword k).data s).isSome

/-- The kind selected by the classifier: first marker in `keywordOrder`
that starts the reply, defaulting to `Thought`. -/
def detect (s : List Char) : CKind :=
  match keywordOrder.find? fun k => leadsWith (typeToKeyword k).data s with
  | some k => k
  | none => CKind.thoughtK

/-- Drop an exact literal from the front of the text, or fail. -/
def dropLit : List Char → List Char → Option (List Char)
  | [], s => some s
  | _ :: _, [] => none
  | p :: ps, c :: cs => if p == c then dropLit ps cs else none

/-- Attempt the regex `ACTION:\s*(\w+)\(([^)]+)\)` anchored at the current
position, returning the two capture groups.  For this pattern greedy
matching never needs to backtrack: `\s` and `\w` are disjoint, a maximal
`\w+` run is followed by `(` or the match fails at this position, and a
maximal `[^)]+` run is followed by `)` or the match fails. -/
def matchActionAt (s : List Char) : Option (String × String) :=
  match dropLit "ACTION:".data s with
  | none => none
  | some r0 =>
    let r1 := r0.dropWhile jsWhitespace
    let name := r1.takeWhile isWordChar
    if name = [] then none
    else
      match r1.dropWhile isWordChar with
      | '(' :: r2 =>
        let ps := r2.takeWhile fun c => c != ')'
        if ps = [] then none
        else
          match r2.dropWhile fun c => c != ')' with
          | ')' :: _ => some (name.asString, ps.asString)
          | _ => none
      | _ => none

/-- JavaScript `String.prototype.match` with the action regex: try every
position left to right and return the first successful match. -/
def searchAction : List Char → Option (String × String)
  | [] => none
  | c :: rest =>
    match matchActionAt (c :: rest) with
    | some r => some r
    | none => searchAction rest

/-- Modelled from the spec: the message carried by `UnreachableCaseError`
(declared in ../types, which is not under src/).  The error taxonomy only
requires a descriptive classification failure, so the text is
representative; no theorem depends on its exact contents. -/
def unreachableCaseMessage : String :=
  "Unreachable case: action"

/-- The `Action` branch of the classifier: run the action regex over the
reply, validate the captured tool name, and build the pre-execution action
content (`parameter: params || null`).  A reply whose action-call syntax
does not match falls through to the `default` case and throws. -/
def classifyActionBranch (s : List Char) : Except String Content :=
  match searchAction s with
  | some np =>
    match toolNameOf? np.1 with
    | some t => Except.ok (Content.action t (if np.2 = "" then none else some np.2) none)
    | none => Except.error ("Invalid tool name: " ++ np.1)
  | none => Except.error unreachableCaseMessage

/-- `mapResponseToLinearActivityContent` on a character list: select the
kind by leading marker (defaulting to `Thought`), then either strip the
kind's keyword (first occurrence) and trim, or parse the action call. -/
def classifyL (s : List Char) : Except String Content :=
  match detect s with
  | CKind.thoughtK =>
    Except.ok (Content.thought (jsTrimL (removeFirst (typeToKeyword CKind.thoughtK).data s)).asString)
  | CKind.responseK =>
    Except.ok (Content.response (jsTrimL (removeFirst (typeToKeyword CKind.responseK).data s)).asString)
  | CKind.elicitationK =>
    Except.ok (Content.elicitation (jsTrimL (removeFirst (typeToKeyword CKind.elicitationK).data s)).asString)
  | CKind.errorK =>
    Except.ok (Content.error (jsTrimL (removeFirst (typeToKeyword CKind.errorK).data s)).asString)
  | CKind.actionK => classifyActionBranch s

/-- `mapResponseToLinearActivityContent`: classify a raw model reply. -/
def classify (s : String) : Except String Content :=
  classifyL s.data

/-- The message thrown by `executeAction` when its parameter is null or
empty (JavaScript `!parameter`). -/
def parameterRequiredMessage : String :=
  "Parameter is required for action execution"

/-- `parameter.replace(/"/g, "")`: remove every double quote. -/
def stripQuotes (s : String) : String :=
  (s.data.filter fun c => c != '"').asString

/-- JavaScript `String.prototype.split(",")` on a character list. -/
def splitCommaL : List Char → List (List Char)
  | [] => [[]]
  | c :: rest =>
    if c = ',' then [] :: splitCommaL rest
    else
      match splitCommaL rest with
      | g :: gs => (c :: g) :: gs
      | [] => [[c]]

/-- JavaScript `String.prototype.split(",")`. -/
def jsSplitComma (s : String) : List String :=
  (splitCommaL s.data).map List.asString

/-- Hexadecimal digit character (lowercase), for JSON escapes. -/
def hexDigit (n : Nat) : Char :=
  "0123456789abcdef".data.getD n '0'

/-- `JSON.stringify` escaping of one character of a string value. -/
def jsonEscapeChar (c : Char) : List Char :=
  if c = '"' then ['\\', '"']
  else if c = '\\' then ['\\', '\\']
  else if c.toNat = 8 then ['\\', 'b']
  else if c.toNat = 9 then ['\\', 't']
  else if c.toNat = 10 then ['\\', 'n']
  else if c.toNat = 12 then ['\\', 'f']
  else if c.toNat = 13 then ['\\', 'r']
  else if c.toNat < 32 then
    ['\\', 'u', '0', '0', hexDigit (c.toNat / 16), hexDigit (c.toNat % 16)]
  else [c]

/-- `JSON.stringify` applied to a string value. -/
def jsonQuote (s : String) : String :=
  ('"' :: (s.data.flatMap jsonEscapeChar ++ ['"'])).asString

/-- Start-of-number test used by `parsesAsFloat`: a digit, a dot followed
by a digit, or the literal `Infinity`. -/
def floatStart : List Char → Bool
  | '.' :: d :: _ => isDigitChar d
  | c :: rest => isDigitChar c || leadsWith "Infinity".data (c :: rest)
  | [] => false

/-- Whether JavaScript `parseFloat` yields something other than `NaN`:
after optional whitespace and sign, the text must begin with a valid
number start. -/
def parsesAsFloat (s : String) : Bool :=
  match (s.data.dropWhile jsWhitespace) with
  | '+' :: r => floatStart r
  | '-' :: r => floatStart r
  | r => floatStart r

/-- `executeAction`: validate and parse the raw parameter per tool, invoke
the tool, and return its textual result.  The network-bound tools are an
oracle from tool name and processed arguments to the result string (the
tool wrappers in tools.ts never throw); for `getWeather`/`getTime` the two
comma-separated coordinate fields are passed in source form after the
`parseFloat` NaN check.  Thrown errors are the `Except.error` cases. -/
def executeAction (oracle : ToolName → List String → String)
    (action : ToolName) (parameter : Option String) : Except String String :=
  match parameter with
  | none => Except.error parameterRequiredMessage
  | some p =>
    if p = "" then Except.error parameterRequiredMessage
    else
      match action with
      | ToolName.getCoordinates =>
        Except.ok (jsonQuote (oracle ToolName.getCoordinates [stripQuotes p]))
      | ToolName.getWeather =>
        let parts := (jsSplitComma p).map jsTrim
        if 2 ≤ parts.length ∧ parsesAsFloat (parts.getD 0 "") ∧ parsesAsFloat (parts.getD 1 "") then
          Except.ok (jsonQuote (oracle ToolName.getWeather [parts.getD 0 "", parts.getD 1 ""]))
        else Except.error "Invalid parameter for getWeather action"
      | ToolName.getTime =>
        let parts := (jsSplitComma p).map jsTrim
        if 2 ≤ parts.length ∧ parsesAsFloat (parts.getD 0 "") ∧ parsesAsFloat (parts.getD 1 "") then
          Except.ok (oracle ToolName.getTime [parts.getD 0 "", parts.getD 1 ""])
        else Except.error "Invalid parameter for getTime action"

/-- A conversation message (`HumanMessage` / `AIMessage`). -/
inductive Message where
  | human (body : String)
  | ai (body : String)
deriving DecidableEq

/-- The `type` field of a stored activity record. -/
inductive ActivityType where
  | prompt
  | thought
  | action
  | response
  | elicitation
  | error
deriving DecidableEq

/-- A stored activity record as read back from the activity store. -/
structure ActivityRec where
  ctype : ActivityType
  body : String
deriving DecidableEq

/-- The history filter: keep only Prompt- and Response-typed records. -/
def keepActivity (a : ActivityRec) : Bool :=
  a.ctype = ActivityType.prompt || a.ctype = ActivityType.response

/-- Map a kept record to a conversation message
(Prompt becomes human, Response becomes assistant). -/
def activityToMessage (a : ActivityRec) : Message :=
  if a.ctype = ActivityType.prompt then Message.human a.body else Message.ai a.body

/-- One page of the paginated activity listing. -/
structure ActivityConnection where
  nodes : List ActivityRec
  hasNextPage : Bool
  endCursor : Option Nat
deriving DecidableEq

/-- The store's paginated read: the session's records partitioned into
pages, fetched by cursor (`none` is the first page, `some i` the page at
index `i`); `endCursor` points at the following page when one exists. -/
def activitiesPage (pages : List (List ActivityRec)) (after : Option Nat) : ActivityConnection :=
  let i := after.getD 0
  { nodes := pages.getD i []
    hasNextPage := decide (i + 1 < pages.length)
    endCursor := if i + 1 < pages.length then some (i + 1) else none }

/-- The `while (hasNextPage && endCursor)` fetch loop of
`generateMessagesFromPreviousActivities`, fuelled by the page count. -/
def fetchRemaining (pages : List (List ActivityRec)) (conn : ActivityConnection) : Nat → List ActivityRec
  | 0 => []
  | fuel + 1 =>
    if conn.hasNextPage then
      match conn.endCursor with
      | some cur =>
        let conn2 := activitiesPage pages (some cur)
        conn2.nodes ++ fetchRemaining pages conn2 fuel
      | none => []
    else []

/-- All activities of the session gathered page by page: first page, then
the cursor loop while a next page exists. -/
def fetchAllActivities (pages : List (List ActivityRec)) : List ActivityRec :=
  let conn := activitiesPage pages none
  conn.nodes ++ fetchRemaining pages conn pages.length

/-- `generateMessagesFromPreviousActivities`: fetch every page, keep only
Prompt and Response records, reverse arrival order to chronological order,
and map each record to a conversation message. -/
def generateMessagesFromPreviousActivities (pages : List (List ActivityRec)) : List Message :=
  (((fetchAllActivities pages).filter keepActivity).reverse).map activityToMessage

/-- One observable side effect of the turn loop, in occurrence order:
a model invocation (recording the message list sent, before the system
prompt is prepended), an activity-store write, a tool execution, or the
courtesy delay. -/
inductive Event where
  | modelCall (msgs : List Message)
  | activityWrite (c : Content)
  | toolExec (tool : ToolName) (parameter : Option String)
  | delay
deriving DecidableEq

/-- Outcome of one loop iteration: continue with an extended message list,
or stop (`taskComplete = true`). -/
inductive StepOut where
  | cont (msgs : List Message)
  | halt
deriving DecidableEq

/-- The environment of one `handleUserPrompt` invocation: the stored
activity pages of the session, the model's scripted replies (reply for the
i-th invocation, or the transport failure message thrown by the client),
and the tool oracle. -/
structure Env where
  pages : List (List ActivityRec)
  modelInvoke : Nat → Except String String
  oracle : ToolName → List String → String

/-- `callLangGraphAgent`: invoke the model; a transport failure is
re-thrown wrapped as an Anthropic API error. -/
def callModel (env : Env) (i : Nat) : Except String String :=
  match env.modelInvoke i with
  | Except.ok r => Except.ok r
  | Except.error e => Except.error ("Anthropic API error: " ++ e)

/-- The `parameter || null` normalisation applied when building the
post-execution action content. -/
def orNull (p : Option String) : Option String :=
  match p with
  | some "" => none
  | x => x

/-- One iteration of the `while` loop of `handleUserPrompt`: call the
model, classify, act on the variant; any failure of the model call, the
classification or the tool execution is caught at the iteration boundary
and published as a single Error activity, halting the loop. -/
def iterStep (env : Env) (msgs : List Message) (i : Nat) : List Event × StepOut :=
  match callModel env i with
  | Except.error e =>
    ([Event.modelCall msgs, Event.activityWrite (Content.error ("Agent error: " ++ e))],
     StepOut.halt)
  | Except.ok response =>
    match classify response with
    | Except.error e =>
      ([Event.modelCall msgs, Event.activityWrite (Content.error ("Agent error: " ++ e))],
       StepOut.halt)
    | Except.ok (Content.thought b) =>
      ([Event.modelCall msgs, Event.activityWrite (Content.thought b), Event.delay],
       StepOut.cont (msgs ++ [Message.ai response]))
    | Except.ok (Content.action tool param res0) =>
      match executeAction env.oracle tool param with
      | Except.error e =>
        ([Event.modelCall msgs, Event.activityWrite (Content.action tool param res0),
          Event.activityWrite (Content.error ("Agent error: " ++ e))],
         StepOut.halt)
      | Except.ok result =>
        ([Event.modelCall msgs, Event.activityWrite (Content.action tool param res0),
          Event.toolExec tool param,
          Event.activityWrite (Content.action tool (orNull param) (some result)),
          Event.delay],
         StepOut.cont (msgs ++ [Message.ai response, Message.human ("Tool result: " ++ result)]))
    | Except.ok (Content.response b) =>
      ([Event.modelCall msgs, Event.activityWrite (Content.response b)], StepOut.halt)
    | Except.ok (Content.elicitation b) =>
      ([Event.modelCall msgs, Event.activityWrite (Content.elicitation b)], StepOut.halt)
    | Except.ok (Content.error b) =>
      ([Event.modelCall msgs, Event.activityWrite (Content.error b)], StepOut.halt)
    | Except.ok (Content.prompt b) =>
      ([Event.modelCall msgs, Event.activityWrite (Content.prompt b)], StepOut.halt)

/-- The bounded `while (!taskComplete && iterations < MAX_ITERATIONS)`
loop: run iterations until one halts or the budget is exhausted, returning
the concatenated event trace and the final `taskComplete` flag. -/
def runIters (env : Env) : List Message → Nat → Nat → List Event × Bool
  | _, _, 0 => ([], false)
  | msgs, i, fuel + 1 =>
    match iterStep env msgs i with
    | (es, StepOut.halt) => (es, true)
    | (es, StepOut.cont msgs2) =>
      let rest := runIters env msgs2 (i + 1) fuel
      (es ++ rest.1, rest.2)

/-- `MAX_ITERATIONS`, the iteration budget of the agent. -/
def MAX_ITERATIONS : Nat := 10

/-- The synthetic message published when the iteration budget runs out. -/
def maxIterationsMessage : String :=
  "The agent has reached the maximum number of iterations and will now stop."

/-- The message list seeded before the first model call: a new human
message holding the user prompt, then the reconstructed history. -/
def seedMessages (env : Env) (userPrompt : String) : List Message :=
  Message.human userPrompt :: generateMessagesFromPreviousActivities env.pages

/-- `handleUserPrompt` as its trace of observable side effects: run the
bounded loop from the seeded messages; if the loop ended with the budget
exhausted and the task incomplete, publish the synthetic Error activity. -/
def handleUserPrompt (env : Env) (userPrompt : String) : List Event :=
  let res := runIters env (seedMessages env userPrompt) 0 MAX_ITERATIONS
  if res.2 then res.1
  else res.1 ++ [Event.activityWrite (Content.error maxIterationsMessage)]

/-- Whether iteration `i` neither reaches a terminal variant nor fails:
the model call succeeds and classifies to a Thought, or to an Action whose
execution resolves.  The control flow of an iteration does not depend on
the message list, only on the reply script and the tool oracle. -/
def nonTerminal (env : Env) (i : Nat) : Bool :=
  match callModel env i with
  | Except.error _ => false
  | Except.ok response =>
    match classify response with
    | Except.error _ => false
    | Except.ok (Content.thought _) => true
    | Except.ok (Content.action tool param _) =>
      match executeAction env.oracle tool param with
      | Except.ok _ => true
      | Except.error _ => false
    | Except.ok _ => false

/-- Event classifier: model invocations. -/
def isModelCallEvent : Event → Bool
  | Event.modelCall _ => true
  | _ => false

/-- Event classifier: activity-store writes. -/
def isWriteEvent : Event → Bool
  | Event.activityWrite _ => true
  | _ => false

/-- Event classifier: writes of an Error-typed activity. -/
def isErrorWriteEvent : Event → Bool
  | Event.activityWrite (Content.error _) => true
  | _ => false

/-- Whether a step outcome continues the loop. -/
def stepContinues : StepOut → Bool
  | StepOut.cont _ => true
  | StepOut.halt => false

/-- Whether classification succeeded. -/
def classifySucceeds (r : Except String Content) : Bool :=
  match r with
  | Except.ok _ => true
  | Except.error _ => false

/-! ### Lemmas about the string utilities and the classifier -/

theorem leadsWith_cons_inv {p : Char} {ps s : List Char}
    (h : leadsWith (p :: ps) s = true) :
    ∃ s1, s = p :: s1 ∧ leadsWith ps s1 = true := by
  cases s with
  | nil => simp [leadsWith] at h
  | cons c cs =>
    simp only [leadsWith, Bool.and_eq_true, beq_iff_eq] at h
    exact ⟨cs, by rw [h.1], h.2⟩

theorem asString_ne_empty {l : List Char} (h : l ≠ []) : l.asString ≠ "" := by
  intro hc
  apply h
  have h2 := congrArg String.data hc
  simpa [List.asString] using h2

theorem matchActionAt_param_ne {s : List Char} {n p : String}
    (h : matchActionAt s = some (n, p)) : p ≠ "" := by
  unfold matchActionAt at h
  split at h
  · exact absurd h (by simp)
  · simp only at h
    split at h
    · exact absurd h (by simp)
    · split at h
      · split at h
        · exact absurd h (by simp)
        · split at h
          · rename_i hps x2 tl he
            have hinj := Option.some.inj h
            have hp : p = (List.takeWhile (fun c => c != ')') _).asString :=
              (Prod.mk.inj hinj).2.symm
            rw [hp]
            exact asString_ne_empty hps
          · exact absurd h (by simp)
      · exact absurd h (by simp)

theorem searchAction_param_ne {s : List Char} {n p : String}
    (h : searchAction s = some (n, p)) : p ≠ "" := by
  induction s with
  | nil => simp [searchAction] at h
  | cons c rest ih =>
    unfold searchAction at h
    split at h
    · rename_i r hm
      have h2 := Option.some.inj h
      rw [h2] at hm
      exact matchActionAt_param_ne hm
    · exact ih h

theorem removeFirst_leading {pat s : List Char}
    (h : leadsWith pat s = true) : removeFirst pat s = s.drop pat.length := by
  cases s with
  | nil =>
    cases pat with
    | nil => rfl
    | cons p ps => simp [leadsWith] at h
  | cons c cs =>
    unfold removeFirst
    rw [if_pos h]

theorem removeFirst_not_occurs {pat : List Char} :
    ∀ {s : List Char}, occursIn pat s = false → removeFirst pat s = s := by
  intro s
  induction s with
  | nil => intro _; rfl
  | cons c rest ih =>
    intro h
    unfold occursIn at h
    rw [Bool.or_eq_false_iff] at h
    unfold removeFirst
    rw [if_neg (by simp [h.1]), ih h.2]

theorem detect_default {s : List Char} (h : hasMarker s = false) :
    detect s = CKind.thoughtK := by
  unfold hasMarker at h
  unfold detect
  split
  · rename_i k hk
    rw [hk] at h
    simp at h
  · rfl

theorem classify_action_inv {s : String} {t : ToolName} {param res0 : Option String}
    (h : classify s = Except.ok (Content.action t param res0)) :
    ∃ n p, searchAction s.data = some (n, p) ∧ toolNameOf? n = some t ∧
      p ≠ "" ∧ param = some p ∧ res0 = none := by
  unfold classify classifyL at h
  split at h
  · exact absurd h (by simp)
  · exact absurd h (by simp)
  · exact absurd h (by simp)
  · exact absurd h (by simp)
  · unfold classifyActionBranch at h
    split at h
    · rename_i np hnp
      split at h
      · rename_i t2 ht2
        have hp : np.2 ≠ "" :=
          searchAction_param_ne (n := np.1) (p := np.2) (by rw [← hnp])
        rw [if_neg hp] at h
        have hinj := Except.ok.inj h
        have h1 := (Content.action.inj hinj).1
        have h2 := (Content.action.inj hinj).2.1
        have h3 := (Content.action.inj hinj).2.2
        exact ⟨np.1, np.2, by rw [hnp], by rw [ht2, h1], hp, h2.symm, h3.symm⟩
      · exact absurd h (by simp)
    · exact absurd h (by simp)

theorem detect_of_leading (k : CKind) {s : List Char}
    (h : leadsWith (typeToKeyword k).data s = true) : detect s = k := by
  cases k with
  | thoughtK =>
    simp [detect, keywordOrder, List.find?, typeToKeyword] at h ⊢
    simp [h]
  | actionK =>
    have h' : leadsWith ('A' :: "CTION:".data) s = true := h
    obtain ⟨s1, hs1, -⟩ := leadsWith_cons_inv h'
    subst hs1
    have hT : leadsWith (typeToKeyword CKind.thoughtK).data ('A' :: s1) = false := rfl
    simp [detect, keywordOrder, List.find?, typeToKeyword] at h ⊢
    simp [h, hT, typeToKeyword] at hT ⊢
  | responseK =>
    have h' : leadsWith ('R' :: "ESPONSE:".data) s = true := h
    obtain ⟨s1, hs1, -⟩ := leadsWith_cons_inv h'
    subst hs1
    have hT : leadsWith (typeToKeyword CKind.thoughtK).data ('R' :: s1) = false := rfl
    have hA : leadsWith (typeToKeyword CKind.actionK).data ('R' :: s1) = false := rfl
    simp [typeToKeyword] at hT hA h
    simp [detect, keywordOrder, List.find?, typeToKeyword, hT, hA, h]
  | elicitationK =>
    have h' : leadsWith ('E' :: "LICITATION:".data) s = true := h
    obtain ⟨s1, hs1, -⟩ := leadsWith_cons_inv h'
    subst hs1
    have hT : leadsWith (typeToKeyword CKind.thoughtK).data ('E' :: s1) = false := rfl
    have hA : leadsWith (typeToKeyword CKind.actionK).data ('E' :: s1) = false := rfl
    have hR : leadsWith (typeToKeyword CKind.responseK).data ('E' :: s1) = false := rfl
    simp [typeToKeyword] at hT hA hR h
    simp [detect, keywordOrder, List.find?, typeToKeyword, hT, hA, hR, h]
  | errorK =>
    have h' : leadsWith ('E' :: 'R' :: "ROR:".data) s = true := h
    obtain ⟨s1, hs1, h1⟩ := leadsWith_cons_inv h'
    obtain ⟨s2, hs2, -⟩ := leadsWith_cons_inv h1
    subst hs1
    subst hs2
    have hT : leadsWith (typeToKeyword CKind.thoughtK).data ('E' :: 'R' :: s2) = false := rfl
    have hA : leadsWith (typeToKeyword CKind.actionK).data ('E' :: 'R' :: s2) = false := rfl
    have hR : leadsWith (typeToKeyword CKind.responseK).data ('E' :: 'R' :: s2) = false := rfl
    have hE : leadsWith (typeToKeyword CKind.elicitationK).data ('E' :: 'R' :: s2) = false := rfl
    simp [typeToKeyword] at hT hA hR hE h
    simp [detect, keywordOrder, List.find?, typeToKeyword, hT, hA, hR, hE, h]

/-! ### Lemmas about one loop iteration -/

theorem iterStep_modelCalls (env : Env) (msgs : List Message) (i : Nat) :
    ((iterStep env msgs i).1).countP isModelCallEvent = 1 := by
  unfold iterStep
  split
  case h_1 => simp [isModelCallEvent, List.countP_cons, List.countP_nil]
  case h_2 =>
    split
    all_goals try simp [isModelCallEvent, List.countP_cons, List.countP_nil]
    split
    all_goals simp [isModelCallEvent, List.countP_cons, List.countP_nil]

theorem iterStep_head (env : Env) (msgs : List Message) (i : Nat) :
    ∃ t, (iterStep env msgs i).1 = Event.modelCall msgs :: t := by
  unfold iterStep
  split
  case h_1 => exact ⟨_, rfl⟩
  case h_2 =>
    split
    case h_3 =>
      split
      all_goals exact ⟨_, rfl⟩
    all_goals exact ⟨_, rfl⟩

theorem iterStep_continues (env : Env) (msgs : List Message) (i : Nat) :
    stepContinues (iterStep env msgs i).2 = nonTerminal env i := by
  cases hc : callModel env i with
  | error e => simp [iterStep, nonTerminal, hc, stepContinues]
  | ok r =>
    cases hcl : classify r with
    | error e => simp [iterStep, nonTerminal, hc, hcl, stepContinues]
    | ok c =>
      cases c with
      | thought b => simp [iterStep, nonTerminal, hc, hcl, stepContinues]
      | action t param r0 =>
        cases he : executeAction env.oracle t param with
        | error e => simp [iterStep, nonTerminal, hc, hcl, he, stepContinues]
        | ok res => simp [iterStep, nonTerminal, hc, hcl, he, stepContinues]
      | response b => simp [iterStep, nonTerminal, hc, hcl, stepContinues]
      | elicitation b => simp [iterStep, nonTerminal, hc, hcl, stepContinues]
      | error b => simp [iterStep, nonTerminal, hc, hcl, stepContinues]
      | prompt b => simp [iterStep, nonTerminal, hc, hcl, stepContinues]

/-! ### Lemmas about the bounded loop -/

theorem runIters_modelCalls (env : Env) :
    ∀ (fuel : Nat) (msgs : List Message) (i : Nat),
      ((runIters env msgs i fuel).1).countP isModelCallEvent ≤ fuel := by
  intro fuel
  induction fuel with
  | zero => intro msgs i; simp [runIters]
  | succ n ih =>
    intro msgs i
    cases hs : iterStep env msgs i with
    | mk es out =>
      have h1 : es.countP isModelCallEvent = 1 := by
        have h2 := iterStep_modelCalls env msgs i
        rw [hs] at h2
        exact h2
      cases out with
      | halt => simp only [runIters, hs]; omega
      | cont m2 =>
        simp only [runIters, hs]
        rw [List.countP_append]
        have h3 := ih m2 (i + 1)
        omega

theorem runIters_head (env : Env) (msgs : List Message) (i fuel : Nat) (h : 0 < fuel) :
    ((runIters env msgs i fuel).1).head? = some (Event.modelCall msgs) := by
  cases fuel with
  | zero => omega
  | succ n =>
    obtain ⟨t, ht⟩ := iterStep_head env msgs i
    cases hs : iterStep env msgs i with
    | mk es out =>
      have ht2 : es = Event.modelCall msgs :: t := by
        rw [hs] at ht
        exact ht
      cases out with
      | halt => simp only [runIters, hs]; simp [ht2]
      | cont m2 => simp only [runIters, hs]; simp [ht2]

theorem runIters_complete_iff (env : Env) :
    ∀ (fuel : Nat) (msgs : List Message) (i : Nat),
      ((runIters env msgs i fuel).2 = false ↔
        ∀ j, j < fuel → nonTerminal env (i + j) = true) := by
  intro fuel
  induction fuel with
  | zero =>
    intro msgs i
    constructor
    · intro _ j hj
      exact absurd hj (Nat.not_lt_zero j)
    · intro _
      rfl
  | succ n ih =>
    intro msgs i
    cases hs : iterStep env msgs i with
    | mk es out =>
      have hcont : stepContinues out = nonTerminal env i := by
        have h2 := iterStep_continues env msgs i
        rw [hs] at h2
        exact h2
      cases out with
      | halt =>
        simp only [runIters, hs]
        simp only [stepContinues] at hcont
        constructor
        · intro h2; cases h2
        · intro hall
          have h0 := hall 0 (by omega)
          rw [Nat.add_zero] at h0
          rw [← hcont] at h0
          cases h0
      | cont m2 =>
        simp only [runIters, hs]
        simp only [stepContinues] at hcont
        rw [ih m2 (i + 1)]
        constructor
        · intro h2 j hj
          cases j with
          | zero => rw [Nat.add_zero]; exact hcont.symm
          | succ k =>
            have e : i + (k + 1) = i + 1 + k := by omega
            rw [e]
            exact h2 k (by omega)
        · intro h2 j hj
          have e : i + 1 + j = i + (j + 1) := by omega
          rw [e]
          exact h2 (j + 1) (by omega)

/-! ### Lemmas about the paginated history fetch -/

theorem flatten_drop_succ {pages : List (List ActivityRec)} :
    ∀ {i : Nat}, i < pages.length →
      (pages.drop i).flatten = pages.getD i [] ++ (pages.drop (i + 1)).flatten := by
  induction pages with
  | nil => intro i h; simp at h
  | cons pg rest ih =>
    intro i h
    cases i with
    | zero => simp
    | succ j =>
      simp only [List.drop_succ_cons, List.getD_cons_succ]
      exact ih (by simpa using h)

theorem fetchRemaining_eq {pages : List (List ActivityRec)} :
    ∀ (fuel i : Nat), pages.length ≤ i + 1 + fuel →
      fetchRemaining pages (activitiesPage pages (some i)) fuel = (pages.drop (i + 1)).flatten := by
  intro fuel
  induction fuel with
  | zero =>
    intro i h
    have hdrop : pages.drop (i + 1) = [] := List.drop_eq_nil_of_le (by omega)
    simp [fetchRemaining, hdrop]
  | succ f ih =>
    intro i h
    by_cases hlt : i + 1 < pages.length
    · have hc : (activitiesPage pages (some i)).hasNextPage = true := by
        simp [activitiesPage, hlt]
      have hcur : (activitiesPage pages (some i)).endCursor = some (i + 1) := by
        simp [activitiesPage, hlt]
      simp only [fetchRemaining, hc, hcur, if_true]
      rw [ih (i + 1) (by omega)]
      have hnodes : (activitiesPage pages (some (i + 1))).nodes = pages.getD (i + 1) [] := by
        simp [activitiesPage]
      rw [hnodes]
      exact (flatten_drop_succ hlt).symm
    · have hc : (activitiesPage pages (some i)).hasNextPage = false := by
        simp [activitiesPage]
        omega
      have hdrop : pages.drop (i + 1) = [] := List.drop_eq_nil_of_le (by omega)
      simp [fetchRemaining, hc, hdrop]

theorem fetchAll_eq_join (pages : List (List ActivityRec)) :
    fetchAllActivities pages = pages.flatten := by
  simp only [fetchAllActivities]
  have h0 : activitiesPage pages none = activitiesPage pages (some 0) := rfl
  rw [h0, fetchRemaining_eq pages.length 0 (by omega)]
  cases pages with
  | nil => simp [activitiesPage]
  | cons pg rest => simp [activitiesPage]

/-! ### Claim theorems -/

/-- Claim C1, counterexample: the reply "a THINKING: b" begins with no
recognized marker, yet classification does not leave the text intact
modulo trimming — the interior occurrence of "THINKING:" is removed by
`response.replace(typeToKeyword[type], "")`, so the returned body differs
both from the raw text and from its trimming. -/
theorem classify_unmarked_mutates_cex :
    hasMarker "a THINKING: b".data = false
    ∧ classify "a THINKING: b" = Except.ok (Content.thought "a  b")
    ∧ "a  b" ≠ "a THINKING: b"
    ∧ "a  b" ≠ jsTrim "a THINKING: b" :=
  ⟨by decide, by decide, by decide, by decide⟩

/-- Claim C1, amended: for every raw reply beginning with one of the
markers `THINKING:`, `RESPONSE:`, `ELICITATION:`, `ERROR:`, classification
returns the matching variant whose body is the reply with the leading
marker removed and whitespace trimmed; for every reply beginning with no
recognized marker, classification returns `Thought` whose body is the
reply with its first occurrence of the substring `THINKING:` (if any)
removed and then trimmed — in particular the text is intact modulo
trimming exactly when `THINKING:` does not occur in its interior.  (A
reply beginning with `ACTION:` is parsed into an Action or fails; see the
action-branch claims.) -/
theorem classify_marker_stripping (s : String) :
    (leadsWith "THINKING:".data s.data = true →
      classify s = Except.ok (Content.thought (jsTrimL (s.data.drop 9)).asString))
    ∧ (leadsWith "RESPONSE:".data s.data = true →
      classify s = Except.ok (Content.response (jsTrimL (s.data.drop 9)).asString))
    ∧ (leadsWith "ELICITATION:".data s.data = true →
      classify s = Except.ok (Content.elicitation (jsTrimL (s.data.drop 12)).asString))
    ∧ (leadsWith "ERROR:".data s.data = true →
      classify s = Except.ok (Content.error (jsTrimL (s.data.drop 6)).asString))
    ∧ (hasMarker s.data = false →
      classify s = Except.ok (Content.thought (jsTrimL (removeFirst "THINKING:".data s.data)).asString))
    ∧ (hasMarker s.data = false → occursIn "THINKING:".data s.data = false →
      classify s = Except.ok (Content.thought (jsTrimL s.data).asString)) := by
  refine ⟨?_, ?_, ?_, ?_, ?_, ?_⟩
  · intro h
    have hd : detect s.data = CKind.thoughtK := detect_of_leading CKind.thoughtK h
    simp only [classify, classifyL, hd, typeToKeyword]
    rw [removeFirst_leading h]
    rfl
  · intro h
    have hd : detect s.data = CKind.responseK := detect_of_leading CKind.responseK h
    simp only [classify, classifyL, hd, typeToKeyword]
    rw [removeFirst_leading h]
    rfl
  · intro h
    have hd : detect s.data = CKind.elicitationK := detect_of_leading CKind.elicitationK h
    simp only [classify, classifyL, hd, typeToKeyword]
    rw [removeFirst_leading h]
    rfl
  · intro h
    have hd : detect s.data = CKind.errorK := detect_of_leading CKind.errorK h
    simp only [classify, classifyL, hd, typeToKeyword]
    rw [removeFirst_leading h]
    rfl
  · intro h
    have hd : detect s.data = CKind.thoughtK := detect_default h
    simp only [classify, classifyL, hd, typeToKeyword]
  · intro h h2
    have hd : detect s.data = CKind.thoughtK := detect_default h
    simp only [classify, classifyL, hd, typeToKeyword]
    rw [removeFirst_not_occurs h2]

/-- Claim C1, witness: a marked reply has its leading marker stripped and
is trimmed; an unmarked reply without an interior `THINKING:` is returned
intact as a Thought. -/
theorem classify_marker_stripping_witness :
    classify "RESPONSE: done" = Except.ok (Content.response "done")
    ∧ classify "just text" = Except.ok (Content.thought "just text") :=
  ⟨(classify_marker_stripping "RESPONSE: done").2.1 (by decide),
   (classify_marker_stripping "just text").2.2.2.2.2 (by decide) (by decide)⟩

/-- Claim C7: a reply tagged as an Action whose action-call syntax parses
but whose extracted tool name is not one of the registered tool names
fails classification with the invalid-tool-name error rather than
succeeding or silently ignoring the call. -/
theorem classify_unregistered_tool_fails (s n p : String)
    (hd : detect s.data = CKind.actionK)
    (hm : searchAction s.data = some (n, p))
    (ht : isToolName n = false) :
    classify s = Except.error ("Invalid tool name: " ++ n) := by
  have hto : toolNameOf? n = none := by
    unfold isToolName at ht
    cases h2 : toolNameOf? n with
    | none => rfl
    | some t => rw [h2] at ht; simp at ht
  simp only [classify, classifyL, hd, classifyActionBranch, hm]
  simp [hto]

/-- Claim C7, witness: `classify "ACTION: bogusTool(1,2)"` fails with the
invalid-tool-name classification error. -/
theorem classify_unregistered_tool_fails_witness :
    detect "ACTION: bogusTool(1,2)".data = CKind.actionK
    ∧ searchAction "ACTION: bogusTool(1,2)".data = some ("bogusTool", "1,2")
    ∧ isToolName "bogusTool" = false
    ∧ classify "ACTION: bogusTool(1,2)" = Except.error ("Invalid tool name: " ++ "bogusTool") :=
  ⟨by decide, by decide, by decide,
    classify_unregistered_tool_fails "ACTION: bogusTool(1,2)" "bogusTool" "1,2"
      (by decide) (by decide) (by decide)⟩

/-- Claim C8, counterexample: a reply tagged as an Action with a
registered tool name and an empty parameter list does not classify to an
Action with no parameter — the action regex requires at least one
character between the parentheses, so classification fails. -/
theorem classify_empty_params_fails_cex :
    detect "ACTION: getWeather()".data = CKind.actionK
    ∧ isToolName "getWeather" = true
    ∧ classifySucceeds (classify "ACTION: getWeather()") = false :=
  ⟨by decide, by decide, by decide⟩

/-- Claim C8, amended: for a reply tagged as an Action whose action-call
syntax `NAME(param-list)` matches with a registered name, classification
extracts the tool name and the raw parameter string, which is always
present and non-empty (the regex requires a non-empty parameter list);
when the syntax does not match — including an empty parameter list —
classification fails. -/
theorem classify_action_parse_cases (s n p : String) (t : ToolName) :
    (detect s.data = CKind.actionK → searchAction s.data = some (n, p) →
      toolNameOf? n = some t →
      classify s = Except.ok (Content.action t (some p) none) ∧ p ≠ "")
    ∧ (detect s.data = CKind.actionK → searchAction s.data = none →
      classify s = Except.error unreachableCaseMessage) := by
  constructor
  · intro hd hm ht
    have hp : p ≠ "" := searchAction_param_ne hm
    refine ⟨?_, hp⟩
    simp only [classify, classifyL, hd, classifyActionBranch, hm]
    simp [ht, hp]
  · intro hd hm
    simp only [classify, classifyL, hd, classifyActionBranch, hm]

/-- Claim C8, witness: a registered tool call with a non-empty parameter
list classifies to the Action variant carrying the raw parameter. -/
theorem classify_action_parse_cases_witness :
    classify "ACTION: getTime(2.5, 3.5)"
      = Except.ok (Content.action ToolName.getTime (some "2.5, 3.5") none)
    ∧ "2.5, 3.5" ≠ "" :=
  (classify_action_parse_cases "ACTION: getTime(2.5, 3.5)" "getTime" "2.5, 3.5"
    ToolName.getTime).1 (by decide) (by decide) (by decide)

/-- Claim C10: every Action produced by a successful classification
carries a non-null, non-empty parameter string, so the missing-parameter
error branch of `executeAction` is unreachable for classifier-produced
actions. -/
theorem classified_action_param_nonempty (s : String) (t : ToolName)
    (param res0 : Option String)
    (h : classify s = Except.ok (Content.action t param res0)) :
    param ≠ none ∧ param ≠ some ""
    ∧ ∀ oracle : ToolName → List String → String,
        executeAction oracle t param ≠ Except.error parameterRequiredMessage := by
  obtain ⟨n, p, hs, ht, hp, hparam, hres⟩ := classify_action_inv h
  subst hparam
  refine ⟨by simp, by simp [hp], ?_⟩
  intro oracle hcontra
  cases t with
  | getCoordinates =>
    simp only [executeAction] at hcontra
    rw [if_neg hp] at hcontra
    simp at hcontra
  | getWeather =>
    simp only [executeAction] at hcontra
    rw [if_neg hp] at hcontra
    split at hcontra
    · simp at hcontra
    · exact absurd (Except.error.inj hcontra) (by decide)
  | getTime =>
    simp only [executeAction] at hcontra
    rw [if_neg hp] at hcontra
    split at hcontra
    · simp at hcontra
    · exact absurd (Except.error.inj hcontra) (by decide)

/-- Claim C2: for every invocation of `handleUserPrompt`, and every reply
script and tool oracle, the number of model invocations in the trace is at
most `MAX_ITERATIONS`. -/
theorem turn_loop_model_call_budget (env : Env) (p : String) :
    ((handleUserPrompt env p).countP isModelCallEvent) ≤ MAX_ITERATIONS := by
  have h3 := runIters_modelCalls env MAX_ITERATIONS (seedMessages env p) 0
  simp only [handleUserPrompt]
  cases h2 : (runIters env (seedMessages env p) 0 MAX_ITERATIONS).2
  · simp only [h2, Bool.false_eq_true, if_false, List.countP_append]
    have h4 : (List.countP isModelCallEvent
        [Event.activityWrite (Content.error maxIterationsMessage)]) = 0 := rfl
    omega
  · simp only [h2, if_true]
    exact h3

/-- Claim C3: an iteration whose reply classifies to an Action and whose
tool execution resolves performs exactly two activity-store writes for
that action — the pre-execution Action activity (result absent) published
before the tool executes, and the post-execution Action activity (same
tool and parameter, result populated) published after the tool call
resolves, in that order — before the loop continues. -/
theorem action_two_writes_ordered (env : Env) (msgs : List Message) (i : Nat)
    (r : String) (t : ToolName) (param : Option String) (res : String)
    (hc : callModel env i = Except.ok r)
    (hcl : classify r = Except.ok (Content.action t param none))
    (he : executeAction env.oracle t param = Except.ok res) :
    iterStep env msgs i
      = ([Event.modelCall msgs,
          Event.activityWrite (Content.action t param none),
          Event.toolExec t param,
          Event.activityWrite (Content.action t param (some res)),
          Event.delay],
         StepOut.cont (msgs ++ [Message.ai r, Message.human ("Tool result: " ++ res)]))
    ∧ ((iterStep env msgs i).1).countP isWriteEvent = 2
    ∧ orNull param = param := by
  have hor : orNull param = param := by
    obtain ⟨n, p2, hs2, ht2, hp2, hparam2, -⟩ := classify_action_inv hcl
    subst hparam2
    simp [orNull, hp2]
  have hstep : iterStep env msgs i
      = ([Event.modelCall msgs,
          Event.activityWrite (Content.action t param none),
          Event.toolExec t param,
          Event.activityWrite (Content.action t param (some res)),
          Event.delay],
         StepOut.cont (msgs ++ [Message.ai r, Message.human ("Tool result: " ++ res)])) := by
    simp [iterStep, hc, hcl, he, hor]
  refine ⟨hstep, ?_, hor⟩
  rw [hstep]
  simp [isWriteEvent, List.countP_cons, List.countP_nil]

/-- Claim C3, witness: a resolving `getWeather` action iteration performs
exactly two activity-store writes. -/
theorem action_two_writes_ordered_witness :
    ((iterStep
        { pages := []
          modelInvoke := fun _ => Except.ok "ACTION: getWeather(40.7,-74.0)"
          oracle := fun _ _ => "15C, clear sky" } [] 0).1).countP isWriteEvent = 2 :=
  (action_two_writes_ordered
    { pages := []
      modelInvoke := fun _ => Except.ok "ACTION: getWeather(40.7,-74.0)"
      oracle := fun _ _ => "15C, clear sky" } [] 0
    "ACTION: getWeather(40.7,-74.0)" ToolName.getWeather (some "40.7,-74.0")
    (jsonQuote "15C, clear sky") (by decide) (by decide) (by decide)).2.1

/-- Claim C4: any uncaught failure during the model call, classification,
or tool execution inside an iteration is caught at the iteration boundary,
exactly one additional Error activity (message prefixed "Agent error: ")
is published, and the loop terminates immediately — no retry and no
further iteration, regardless of the remaining budget. -/
theorem iteration_failure_single_error_halt (env : Env) (msgs : List Message)
    (i fuel : Nat) :
    (∀ e, callModel env i = Except.error e →
      runIters env msgs i (fuel + 1)
        = ([Event.modelCall msgs,
            Event.activityWrite (Content.error ("Agent error: " ++ e))], true))
    ∧ (∀ r e, callModel env i = Except.ok r → classify r = Except.error e →
      runIters env msgs i (fuel + 1)
        = ([Event.modelCall msgs,
            Event.activityWrite (Content.error ("Agent error: " ++ e))], true))
    ∧ (∀ r t param res0 e, callModel env i = Except.ok r →
        classify r = Except.ok (Content.action t param res0) →
        executeAction env.oracle t param = Except.error e →
      runIters env msgs i (fuel + 1)
        = ([Event.modelCall msgs,
            Event.activityWrite (Content.action t param res0),
            Event.activityWrite (Content.error ("Agent error: " ++ e))], true)) := by
  refine ⟨?_, ?_, ?_⟩
  · intro e hc
    have hstep : iterStep env msgs i
        = ([Event.modelCall msgs,
            Event.activityWrite (Content.error ("Agent error: " ++ e))],
           StepOut.halt) := by
      simp [iterStep, hc]
    simp [runIters, hstep]
  · intro r e hc hcl
    have hstep : iterStep env msgs i
        = ([Event.modelCall msgs,
            Event.activityWrite (Content.error ("Agent error: " ++ e))],
           StepOut.halt) := by
      simp [iterStep, hc, hcl]
    simp [runIters, hstep]
  · intro r t param res0 e hc hcl he
    have hstep : iterStep env msgs i
        = ([Event.modelCall msgs,
            Event.activityWrite (Content.action t param res0),
            Event.activityWrite (Content.error ("Agent error: " ++ e))],
           StepOut.halt) := by
      simp [iterStep, hc, hcl, he]
    simp [runIters, hstep]

/-- Claim C4, witness: the unparsable coordinate parameter "abc,def" for
`getWeather` raises the parameter error, which terminates the loop with
exactly one additional Error activity after the pre-execution write. -/
theorem iteration_failure_single_error_halt_witness :
    runIters
      { pages := []
        modelInvoke := fun _ => Except.ok "ACTION: getWeather(abc,def)"
        oracle := fun _ _ => "unused" } [] 0 MAX_ITERATIONS
      = ([Event.modelCall [],
          Event.activityWrite (Content.action ToolName.getWeather (some "abc,def") none),
          Event.activityWrite
            (Content.error ("Agent error: " ++ "Invalid parameter for getWeather action"))],
         true) :=
  ((iteration_failure_single_error_halt
      { pages := []
        modelInvoke := fun _ => Except.ok "ACTION: getWeather(abc,def)"
        oracle := fun _ _ => "unused" } [] 0 9).2.2)
    "ACTION: getWeather(abc,def)" ToolName.getWeather (some "abc,def") none
    "Invalid parameter for getWeather action" (by decide) (by decide) (by decide)

/-- Claim C5: history reconstruction reads every page exhaustively, keeps
only Prompt- and Response-typed records, returns arrival order reversed to
chronological order with Prompt mapped to a human message and Response to
an assistant message, has length equal to the count of Prompt and Response
records across all pages, is independent of how the records are paged, and
yields the empty sequence for a session with zero prior activities. -/
theorem history_reconstruction_complete (pages pages2 : List (List ActivityRec)) :
    generateMessagesFromPreviousActivities pages
      = ((pages.flatten.filter keepActivity).reverse).map activityToMessage
    ∧ (generateMessagesFromPreviousActivities pages).length
      = pages.flatten.countP keepActivity
    ∧ generateMessagesFromPreviousActivities [] = []
    ∧ (pages.flatten = pages2.flatten →
        generateMessagesFromPreviousActivities pages
          = generateMessagesFromPreviousActivities pages2) := by
  have hmain : ∀ ps : List (List ActivityRec),
      generateMessagesFromPreviousActivities ps
        = ((ps.flatten.filter keepActivity).reverse).map activityToMessage := by
    intro ps
    simp only [generateMessagesFromPreviousActivities, fetchAll_eq_join]
  refine ⟨hmain pages, ?_, rfl, ?_⟩
  · rw [hmain pages]
    rw [List.length_map, List.length_reverse, List.countP_eq_length_filter]
  · intro h
    rw [hmain pages, hmain pages2, h]

/-- Claim C5, witness: the reconstruction is the same whether the two
records arrive in one page or in two. -/
theorem history_reconstruction_complete_witness :
    generateMessagesFromPreviousActivities
        [[ActivityRec.mk ActivityType.prompt "q"], [ActivityRec.mk ActivityType.response "a"]]
      = generateMessagesFromPreviousActivities
        [[ActivityRec.mk ActivityType.prompt "q", ActivityRec.mk ActivityType.response "a"]] :=
  (history_reconstruction_complete
    [[ActivityRec.mk ActivityType.prompt "q"], [ActivityRec.mk ActivityType.response "a"]]
    [[ActivityRec.mk ActivityType.prompt "q", ActivityRec.mk ActivityType.response "a"]]).2.2.2
    (by decide)

/-- Claim C6: the synthetic Error activity stating that the iteration
limit was reached is appended (exactly once, after the loop trace) if and
only if every one of the `MAX_ITERATIONS` iterations ran without reaching
a terminal variant and without an exception terminating the loop. -/
theorem budget_exhaustion_iff_synthetic_error (env : Env) (p : String) :
    (handleUserPrompt env p
       = (runIters env (seedMessages env p) 0 MAX_ITERATIONS).1
         ++ [Event.activityWrite (Content.error maxIterationsMessage)])
    ↔ (∀ i, i < MAX_ITERATIONS → nonTerminal env i = true) := by
  have hiff := runIters_complete_iff env MAX_ITERATIONS (seedMessages env p) 0
  simp only [Nat.zero_add] at hiff
  rw [← hiff]
  simp only [handleUserPrompt]
  cases h2 : (runIters env (seedMessages env p) 0 MAX_ITERATIONS).2
  · simp [h2]
  · simp only [h2, if_true]
    constructor
    · intro hcontra
      have h4 := congrArg List.length hcontra
      simp at h4
    · intro h4
      cases h4

/-- Claim C6, witness: when every reply is a Thought the ten iterations
all run non-terminally and the synthetic budget-exhaustion Error activity
is appended after the loop trace. -/
theorem budget_exhaustion_iff_synthetic_error_witness :
    handleUserPrompt
      { pages := []
        modelInvoke := fun _ => Except.ok "THINKING: still working"
        oracle := fun _ _ => "unused" } "hello"
      = (runIters
          { pages := []
            modelInvoke := fun _ => Except.ok "THINKING: still working"
            oracle := fun _ _ => "unused" }
          (seedMessages
            { pages := []
              modelInvoke := fun _ => Except.ok "THINKING: still working"
              oracle := fun _ _ => "unused" } "hello") 0 MAX_ITERATIONS).1
        ++ [Event.activityWrite (Content.error maxIterationsMessage)] :=
  (budget_exhaustion_iff_synthetic_error
    { pages := []
      modelInvoke := fun _ => Except.ok "THINKING: still working"
      oracle := fun _ _ => "unused" } "hello").mpr (by decide)

/-- Claim C9: the message list sent on the first model call is the new
human message holding the user prompt, followed by the reconstructed
history messages. -/
theorem first_model_call_seed (env : Env) (p : String) :
    (handleUserPrompt env p).head?
      = some (Event.modelCall
          (Message.human p :: generateMessagesFromPreviousActivities env.pages)) := by
  have hh := runIters_head env (seedMessages env p) 0 MAX_ITERATIONS (by decide)
  simp only [handleUserPrompt]
  cases h2 : (runIters env (seedMessages env p) 0 MAX_ITERATIONS).2
  · simp only [h2, Bool.false_eq_true, if_false]
    cases hr : (runIters env (seedMessages env p) 0 MAX_ITERATIONS).1 with
    | nil => rw [hr] at hh; simp at hh
    | cons a tl =>
      rw [hr] at hh
      simp at hh
      simp [hh, seedMessages]
  · simp only [h2, if_true]
    rw [hh]
    rfl

/-- Claim C10, witness: a classified `getCoordinates` call carries a
non-null, non-empty parameter and does not hit the missing-parameter
branch of `executeAction`. -/
theorem classified_action_param_nonempty_witness :
    (some "\"Lyon\"" : Option String) ≠ none
    ∧ (some "\"Lyon\"" : Option String) ≠ some ""
    ∧ executeAction (fun _ _ => "ok") ToolName.getCoordinates (some "\"Lyon\"")
        ≠ Except.error parameterRequiredMessage := by
  have h := classified_action_param_nonempty "ACTION: getCoordinates(\"Lyon\")"
    ToolName.getCoordinates (some "\"Lyon\"") none (by decide)
  exact ⟨h.1, h.2.1, h.2.2 (fun _ _ => "ok")⟩

end WeatherBot
